import Mathlib

/-!
Verification development for the metrics-collector and dynamic-config core
(`toolkit/metrics_collector.py`, `toolkit/dynamic_config.py`).

The Python code is shallowly embedded: Python scalar values become an
inductive `PyVal` (with floats split into finite / infinite / NaN so that
the `value != value` NaN test and the `isinstance` checks are faithful),
the sqlite `TrainingMetrics` table becomes a list of rows mutated by an
`INSERT OR REPLACE` upsert, and the stateful collector / config objects
become explicit state records transformed by pure functions.  Python's
built-in `hash` for strings is an unspecified function, so it is passed
as an explicit parameter `pyHash`.
-/

/-- A Python float, split by class: a finite value (modelled exactly as a
rational), an infinity with its sign, or NaN.  Only NaN satisfies
`value != value`. -/
inductive PyFloat where
  | fin (q : ℚ)
  | inf (neg : Bool)
  | nan
deriving DecidableEq, Repr

/-- A Python scalar value as seen by `log_step_metrics`.  `pyBool` is kept
separate because Python booleans are `int` instances (`True == 1`). -/
inductive PyVal where
  | pyInt (n : Int)
  | pyBool (b : Bool)
  | pyFloat (f : PyFloat)
  | pyStr (s : String)
  | pyNone
  | pyOther
deriving DecidableEq, Repr

/-- `isinstance(value, (int, float)) and not (isinstance(value, float) and
(value != value))` — the guard used for loss values, the learning rate and
numeric kwargs.  Booleans pass (they are `int` instances); infinities pass;
only NaN is rejected among numbers. -/
def isReportableNum : PyVal → Bool
  | .pyInt _ => true
  | .pyBool _ => true
  | .pyFloat .nan => false
  | .pyFloat _ => true
  | _ => false

/-- `float(value)` on a value that passed `isReportableNum`. -/
def pyToFloat : PyVal → PyFloat
  | .pyInt n => .fin n
  | .pyBool b => .fin (if b then 1 else 0)
  | .pyFloat f => f
  | _ => .fin 0

/-- One row of the `TrainingMetrics` table / one buffered event. -/
structure MetricEvent where
  id : String
  job_id : String
  step : Nat
  timestamp : String
  metric_type : String
  metric_name : String
  value : PyFloat
deriving DecidableEq, Repr

/-- `key.replace('/', '_').replace(' ', '_').replace('-', '_')` acting on a
single character. -/
def safeChar (c : Char) : Char :=
  if c = '/' ∨ c = ' ' ∨ c = '-' then '_' else c

/-- `key.replace('/', '_').replace(' ', '_').replace('-', '_')` — each
pattern is a single character, so the chained replaces are a character map. -/
def safe_key (k : String) : String :=
  ⟨k.data.map safeChar⟩

/-- Id of a loss event: `f"{job_id}_{step}_loss_{safe_key}"`. -/
def lossId (job : String) (step : Nat) (key : String) : String :=
  job ++ "_" ++ toString step ++ "_loss_" ++ safe_key key

/-- Id of the learning-rate event: `f"{job_id}_{step}_lr"`. -/
def lrId (job : String) (step : Nat) : String :=
  job ++ "_" ++ toString step ++ "_lr"

/-- Id of a numeric kwargs event: `f"{job_id}_{step}_system_{key}"`. -/
def systemId (job : String) (step : Nat) (key : String) : String :=
  job ++ "_" ++ toString step ++ "_system_" ++ key

/-- Id of a short-string kwargs event: `f"{job_id}_{step}_info_{key}"`. -/
def infoId (job : String) (step : Nat) (key : String) : String :=
  job ++ "_" ++ toString step ++ "_info_" ++ key

/-- The loss loop of `log_step_metrics`: one event per dict entry whose
value is a non-NaN number; `metric_name` keeps the raw key, the id uses the
sanitized key. -/
def lossEvents (job : String) (step : Nat) (ts : String)
    (loss_dict : List (String × PyVal)) : List MetricEvent :=
  loss_dict.filterMap fun p =>
    if isReportableNum p.2 then
      some { id := lossId job step p.1, job_id := job, step := step,
             timestamp := ts, metric_type := "loss", metric_name := p.1,
             value := pyToFloat p.2 }
    else none

/-- The learning-rate block of `log_step_metrics`. -/
def lrEvent (job : String) (step : Nat) (ts : String) (lr : PyVal) :
    Option MetricEvent :=
  if isReportableNum lr then
    some { id := lrId job step, job_id := job, step := step, timestamp := ts,
           metric_type := "learning_rate", metric_name := "lr",
           value := pyToFloat lr }
  else none

/-- The kwargs block of `log_step_metrics` for a single `(key, value)` pair:
`None` is skipped, a non-NaN number becomes a `system` event, a string of
length `< 100` becomes an `info` event storing `hash(value) % 1000000`,
everything else is skipped. -/
def kwargsEvent (pyHash : String → Int) (job : String) (step : Nat)
    (ts : String) (key : String) (v : PyVal) : Option MetricEvent :=
  if v = .pyNone then none
  else if isReportableNum v then
    some { id := systemId job step key, job_id := job, step := step,
           timestamp := ts, metric_type := "system", metric_name := key,
           value := pyToFloat v }
  else
    match v with
    | .pyStr s =>
        if s.length < 100 then
          some { id := infoId job step key, job_id := job, step := step,
                 timestamp := ts, metric_type := "info", metric_name := key,
                 value := .fin ((pyHash s % 1000000 : Int) : ℚ) }
        else none
    | _ => none

/-- The kwargs loop of `log_step_metrics`. -/
def kwargsEvents (pyHash : String → Int) (job : String) (step : Nat)
    (ts : String) (kwargs : List (String × PyVal)) : List MetricEvent :=
  kwargs.filterMap fun p => kwargsEvent pyHash job step ts p.1 p.2

/-- All events appended to the buffer by one `log_step_metrics` call, in
source order: losses, then the learning rate, then kwargs. -/
def logStepEvents (pyHash : String → Int) (job : String) (step : Nat)
    (ts : String) (loss_dict : List (String × PyVal)) (lr : PyVal)
    (kwargs : List (String × PyVal)) : List MetricEvent :=
  lossEvents job step ts loss_dict ++ (lrEvent job step ts lr).toList ++
    kwargsEvents pyHash job step ts kwargs

/-- The durable `TrainingMetrics` table: a list of rows; the `id` column is
the primary key. -/
abbrev Store := List MetricEvent

/-- `INSERT OR REPLACE` of one row, keyed by `id`: if a row with the same id
exists it is replaced in place, otherwise the row is appended. -/
def upsert (db : Store) (e : MetricEvent) : Store :=
  if db.any (fun r => r.id = e.id) then
    db.map fun r => if r.id = e.id then e else r
  else db ++ [e]

/-- Row lookup by primary key. -/
def findRow (db : Store) (i : String) : Option MetricEvent :=
  db.find? fun r => r.id = i

/-- The primary-key invariant: every row has a distinct id. -/
abbrev idsNodup (db : Store) : Prop :=
  (db.map fun r => r.id).Nodup

theorem find?_map_ne (db : Store) (e : MetricEvent) (i : String)
    (hi : e.id ≠ i) :
    (db.map fun r => if r.id = e.id then e else r).find? (fun r => r.id = i) =
      db.find? fun r => r.id = i := by
  induction db with
  | nil => rfl
  | cons r db ih =>
      simp only [List.map_cons]
      by_cases hr : r.id = e.id
      · have hri : ¬ r.id = i := by rw [hr]; exact hi
        rw [if_pos hr, List.find?_cons_of_neg _ (by simpa using hi),
          List.find?_cons_of_neg _ (by simpa using hri), ih]
      · rw [if_neg hr]
        by_cases hri : r.id = i
        · rw [List.find?_cons_of_pos _ (by simpa using hri),
            List.find?_cons_of_pos _ (by simpa using hri)]
        · rw [List.find?_cons_of_neg _ (by simpa using hri),
            List.find?_cons_of_neg _ (by simpa using hri), ih]

theorem find?_map_eq (db : Store) (e : MetricEvent)
    (h : db.any (fun r => r.id = e.id) = true) :
    (db.map fun r => if r.id = e.id then e else r).find?
      (fun r => r.id = e.id) = some e := by
  induction db with
  | nil => simp at h
  | cons r db ih =>
      simp only [List.map_cons]
      by_cases hr : r.id = e.id
      · rw [if_pos hr]
        exact List.find?_cons_of_pos _ (by simp)
      · rw [if_neg hr, List.find?_cons_of_neg _ (by simpa using hr)]
        apply ih
        simpa [hr] using h

theorem findRow_upsert (db : Store) (e : MetricEvent) (i : String) :
    findRow (upsert db e) i = if e.id = i then some e else findRow db i := by
  cases hb : db.any (fun r => r.id = e.id) with
  | true =>
      have h1 : upsert db e = db.map fun r => if r.id = e.id then e else r := by
        simp [upsert, hb]
      rw [h1]
      unfold findRow
      by_cases hi : e.id = i
      · subst hi
        rw [find?_map_eq db e hb, if_pos rfl]
      · rw [find?_map_ne db e i hi, if_neg hi]
  | false =>
      have h1 : upsert db e = db ++ [e] := by
        simp [upsert, hb]
      rw [h1]
      unfold findRow
      rw [List.find?_append]
      by_cases hi : e.id = i
      · subst hi
        have hnone : db.find? (fun r => r.id = e.id) = none := by
          rw [List.find?_eq_none]
          intro x hx
          have := List.any_eq_false.mp hb x hx
          simpa using this
        rw [hnone]
        simp
      · have h2 : List.find? (fun r => r.id = i) [e] = none := by
          simp [hi]
        rw [h2, if_neg hi, Option.or_none]

/-- Upsert preserves the primary-key invariant. -/
theorem idsNodup_upsert (db : Store) (e : MetricEvent) (h : idsNodup db) :
    idsNodup (upsert db e) := by
  cases hb : db.any (fun r => r.id = e.id) with
  | true =>
      have h1 : upsert db e = db.map fun r => if r.id = e.id then e else r := by
        simp [upsert, hb]
      rw [h1]
      have h2 : ((db.map fun r => if r.id = e.id then e else r).map
          fun r => r.id) = db.map fun r => r.id := by
        rw [List.map_map]
        apply List.map_congr_left
        intro r _
        by_cases hr : r.id = e.id <;> simp [hr]
      unfold idsNodup
      rw [h2]
      exact h
  | false =>
      have h1 : upsert db e = db ++ [e] := by
        simp [upsert, hb]
      rw [h1]
      unfold idsNodup
      rw [List.map_append, List.nodup_append]
      refine ⟨h, by simp, ?_⟩
      intro a ha
      simp only [List.map_cons, List.map_nil, List.mem_singleton]
      intro hae
      subst hae
      rcases List.mem_map.mp ha with ⟨r, hr, hrid⟩
      have := List.any_eq_false.mp hb r hr
      simp [hrid] at this

/-- The key batch-write fact: after folding a list of events into the store
with `upsert`, looking up any id yields the last event in the batch with
that id, or the pre-existing row if the batch never mentions the id. -/
theorem findRow_foldl_upsert (evs : List MetricEvent) (db : Store)
    (i : String) :
    findRow (evs.foldl upsert db) i =
      evs.foldl (fun acc e => if e.id = i then some e else acc)
        (findRow db i) := by
  induction evs generalizing db with
  | nil => rfl
  | cons e evs ih =>
      simp only [List.foldl_cons]
      rw [ih, findRow_upsert]

/-- Folding a batch of events into a store with the primary-key invariant
preserves it: the store never acquires duplicate rows. -/
theorem idsNodup_foldl_upsert (evs : List MetricEvent) (db : Store)
    (h : idsNodup db) : idsNodup (evs.foldl upsert db) := by
  induction evs generalizing db with
  | nil => exact h
  | cons e evs ih => exact ih (upsert db e) (idsNodup_upsert db e h)

/-- In-memory state of a `LossCollector`: its job id, resolved database
path, event buffer and flush threshold. -/
structure CollectorState where
  job_id : String
  db_path : String
  buffer : List MetricEvent
  buffer_size : Nat
deriving DecidableEq, Repr

/-- `db_path or self._get_default_db_path()` — Python `or` also replaces an
empty (falsy) string by the default.  The filesystem-dependent default path
is passed in as `dflt`. -/
def resolveDbPath (db_path : Option String) (dflt : String) : String :=
  match db_path with
  | none => dflt
  | some p => if p = "" then dflt else p

/-- `LossCollector.__init__`: empty buffer, `buffer_size = 10`. -/
def collectorInit (job_id : String) (db_path : Option String)
    (dflt : String) : CollectorState :=
  { job_id := job_id, db_path := resolveDbPath db_path dflt,
    buffer := [], buffer_size := 10 }

/-- Outcome of a `flush` call: the collector state and table afterwards,
and whether a storage write was attempted. -/
structure FlushResult where
  state : CollectorState
  store : Store
  attempted : Bool
deriving Repr

/-- `LossCollector.flush`.  An empty buffer returns immediately without
touching storage.  Otherwise the whole buffer is written as one batched
`INSERT OR REPLACE`; `ok` is the oracle for whether that write succeeds.
`self.buffer.clear()` sits inside the `try` block after the write, so the
buffer is cleared only on success; on failure the exception handler leaves
buffer and table as they were. -/
def flush (s : CollectorState) (db : Store) (ok : Bool) : FlushResult :=
  if s.buffer.isEmpty then ⟨s, db, false⟩
  else if ok then ⟨{ s with buffer := [] }, s.buffer.foldl upsert db, true⟩
  else ⟨s, db, true⟩

/-- Outcome of a `log_step_metrics` call: collector state, table, and
whether the call triggered a flush that attempted a storage write. -/
structure ReportResult where
  state : CollectorState
  store : Store
  flushed : Bool
deriving Repr

/-- `LossCollector.log_step_metrics`: append the events derived from the
call to the buffer (under the lock), then flush synchronously if the buffer
has reached `buffer_size`. -/
def log_step_metrics (pyHash : String → Int) (s : CollectorState)
    (db : Store) (ok : Bool) (step : Nat) (ts : String)
    (loss_dict : List (String × PyVal)) (lr : PyVal)
    (kwargs : List (String × PyVal)) : ReportResult :=
  let evs := logStepEvents pyHash s.job_id step ts loss_dict lr kwargs
  let s1 : CollectorState := { s with buffer := s.buffer ++ evs }
  if s.buffer_size ≤ s1.buffer.length then
    let f := flush s1 db ok
    ⟨f.state, f.store, f.attempted⟩
  else ⟨s1, db, false⟩

/-- The process-wide collector registry (`MetricsManager._collectors`),
keyed by job id, in insertion order. -/
abbrev Registry := List (String × CollectorState)

/-- Dictionary lookup in the registry. -/
def regFind (reg : Registry) (j : String) : Option CollectorState :=
  (reg.find? fun p => p.1 = j).map fun p => p.2

/-- `MetricsManager.get_collector`: create-and-store on first request for a
job id, otherwise return the stored collector (`db_path` is ignored then). -/
def get_collector (dflt : String) (reg : Registry) (job_id : String)
    (db_path : Option String) : CollectorState × Registry :=
  match regFind reg job_id with
  | some c => (c, reg)
  | none =>
      let c := collectorInit job_id db_path dflt
      (c, reg ++ [(job_id, c)])

/-- `MetricsManager.cleanup_collector`: if the job id is registered, run its
final flush (`cleanup`) and delete it from the registry; otherwise do
nothing. -/
def cleanup_collector (reg : Registry) (j : String) (db : Store)
    (ok : Bool) : Registry × Store :=
  match regFind reg j with
  | none => (reg, db)
  | some c => (reg.filter fun p => ¬ p.1 = j, (flush c db ok).store)

theorem regFind_append_self (reg : Registry) (j : String)
    (c : CollectorState) (h : regFind reg j = none) :
    regFind (reg ++ [(j, c)]) j = some c := by
  unfold regFind at h ⊢
  rw [List.find?_append]
  have h2 : reg.find? (fun p => p.1 = j) = none := by
    cases hf : reg.find? fun p => p.1 = j with
    | none => rfl
    | some p => rw [hf] at h; simp at h
  rw [h2]
  simp

theorem regFind_filter_ne (reg : Registry) (j : String) :
    regFind (reg.filter fun p => ¬ p.1 = j) j = none := by
  unfold regFind
  have : (reg.filter fun p => ¬ p.1 = j).find? (fun p => p.1 = j) = none := by
    rw [List.find?_eq_none]
    intro x hx
    have := List.of_mem_filter hx
    simpa using this
  rw [this]
  rfl

theorem string_append_left_cancel (p a b : String) :
    p ++ a = p ++ b ↔ a = b := by
  constructor
  · intro h
    apply String.ext
    have hd := congrArg String.data h
    simp only [String.data_append] at hd
    exact List.append_cancel_left hd
  · intro h; rw [h]

/-- The value of a decimal digit character. -/
def digitVal (c : Char) : Nat := c.toNat - '0'.toNat

/-- Read a decimal digit string back into a number. -/
def ofDigits (l : List Char) : Nat :=
  l.foldl (fun a c => 10 * a + digitVal c) 0

theorem digitChar_isDigit (m : Nat) (hm : m < 10) :
    (Nat.digitChar m).isDigit = true := by
  interval_cases m <;> decide

theorem digitVal_digitChar (m : Nat) (hm : m < 10) :
    digitVal (Nat.digitChar m) = m := by
  interval_cases m <;> decide

theorem toDigitsCore_append (f : Nat) : ∀ (n : Nat) (ds : List Char),
    Nat.toDigitsCore 10 f n ds = Nat.toDigitsCore 10 f n [] ++ ds := by
  induction f with
  | zero => intro n ds; rfl
  | succ f ih =>
      intro n ds
      unfold Nat.toDigitsCore
      by_cases h : n / 10 = 0
      · simp [h]
      · simp only [h, if_false]
        rw [ih (n / 10) [Nat.digitChar (n % 10)],
          ih (n / 10) (Nat.digitChar (n % 10) :: ds)]
        simp

/-- Every character of the decimal rendering is a digit. -/
theorem toDigitsCore_digits (f : Nat) : ∀ (n : Nat) (ds : List Char),
    (∀ c ∈ ds, c.isDigit = true) →
    ∀ c ∈ Nat.toDigitsCore 10 f n ds, c.isDigit = true := by
  induction f with
  | zero => intro n ds h; exact h
  | succ f ih =>
      intro n ds h c hc
      unfold Nat.toDigitsCore at hc
      have hd : ∀ x ∈ Nat.digitChar (n % 10) :: ds, x.isDigit = true := by
        intro x hx
        rcases List.mem_cons.mp hx with hx | hx
        · subst hx
          exact digitChar_isDigit _ (Nat.mod_lt n (by decide))
        · exact h x hx
      by_cases hz : n / 10 = 0
      · simp only [hz, if_true] at hc
        exact hd c hc
      · simp only [hz, if_false] at hc
        exact ih (n / 10) (Nat.digitChar (n % 10) :: ds) hd c hc

/-- With sufficient fuel, the decimal rendering evaluates back to its
input. -/
theorem ofDigits_toDigitsCore (f : Nat) : ∀ n : Nat, n < f →
    ofDigits (Nat.toDigitsCore 10 f n []) = n := by
  induction f with
  | zero => intro n hn; omega
  | succ f ih =>
      intro n hn
      unfold Nat.toDigitsCore
      by_cases h : n / 10 = 0
      · have h10 : n < 10 := by omega
        simp only [h, if_true]
        show 10 * 0 + digitVal (Nat.digitChar (n % 10)) = n
        rw [digitVal_digitChar _ (Nat.mod_lt n (by decide))]
        omega
      · simp only [h, if_false]
        rw [toDigitsCore_append f (n / 10) [Nat.digitChar (n % 10)]]
        have h1 : n / 10 < f := by
          have h2 : 0 < n := by
            by_contra hn0
            have : n = 0 := by omega
            subst this
            simp at h
          have := Nat.div_lt_self h2 (by decide : (1 : Nat) < 10)
          omega
        unfold ofDigits
        rw [List.foldl_append]
        have := ih (n / 10) h1
        unfold ofDigits at this
        rw [this]
        show 10 * (n / 10) + digitVal (Nat.digitChar (n % 10)) = n
        rw [digitVal_digitChar _ (Nat.mod_lt n (by decide))]
        omega

theorem repr_data (n : Nat) : (Nat.repr n).data = Nat.toDigits 10 n := rfl

theorem repr_digits (n : Nat) :
    ∀ c ∈ (Nat.repr n).data, c.isDigit = true := by
  rw [repr_data]
  exact toDigitsCore_digits (n + 1) n [] (by intro c hc; simp at hc)

/-- `Nat.repr` is injective: distinct steps render to distinct strings. -/
theorem repr_injective (n1 n2 : Nat) (h : Nat.repr n1 = Nat.repr n2) :
    n1 = n2 := by
  have hd : Nat.toDigits 10 n1 = Nat.toDigits 10 n2 := by
    rw [← repr_data, ← repr_data, h]
  have h1 := ofDigits_toDigitsCore (n1 + 1) n1 (by omega)
  have h2 := ofDigits_toDigitsCore (n2 + 1) n2 (by omega)
  unfold Nat.toDigits at hd
  rw [hd] at h1
  omega

/-- A run of digits followed by a non-digit delimiter parses uniquely:
equal concatenations force equal runs and equal tails. -/
theorem digit_run_cancel : ∀ (a b t1 t2 : List Char),
    (∀ c ∈ a, c.isDigit = true) → (∀ c ∈ b, c.isDigit = true) →
    (∀ c, t1.head? = some c → c.isDigit = false) →
    (∀ c, t2.head? = some c → c.isDigit = false) →
    a ++ t1 = b ++ t2 → a = b ∧ t1 = t2 := by
  intro a
  induction a with
  | nil =>
      intro b t1 t2 _ hb ht1 _ h
      cases b with
      | nil => exact ⟨rfl, h⟩
      | cons c b =>
          simp only [List.nil_append, List.cons_append] at h
          have hc : t1.head? = some c := by rw [h]; rfl
          have := ht1 c hc
          have := hb c (List.mem_cons_self c b)
          simp_all
  | cons c a ih =>
      intro b t1 t2 ha hb ht1 ht2 h
      cases b with
      | nil =>
          simp only [List.cons_append, List.nil_append] at h
          have hc : t2.head? = some c := by rw [← h]; rfl
          have := ht2 c hc
          have := ha c (List.mem_cons_self c a)
          simp_all
      | cons c2 b =>
          simp only [List.cons_append, List.cons.injEq] at h
          obtain ⟨hc, hrest⟩ := h
          subst hc
          have := ih b t1 t2 (fun x hx => ha x (List.mem_cons_of_mem c hx))
            (fun x hx => hb x (List.mem_cons_of_mem c hx)) ht1 ht2 hrest
          exact ⟨by rw [this.1], this.2⟩

/-- In an id `job ++ "_" ++ step ++ tail` whose tail starts with the
non-digit `'_'`, the step's digit run is delimited, so for a fixed job the
step and the tail are both recovered uniquely. -/
theorem stepTail_cancel (j : String) (s1 s2 : Nat) (r1 r2 : String)
    (h1 : r1.data.head? = some '_') (h2 : r2.data.head? = some '_')
    (h : j ++ "_" ++ toString s1 ++ r1 = j ++ "_" ++ toString s2 ++ r2) :
    s1 = s2 ∧ r1 = r2 := by
  have hd := congrArg String.data h
  simp only [String.data_append, List.append_assoc] at hd
  have hd2 := List.append_cancel_left (List.append_cancel_left hd)
  have hts : (toString s1 : String).data = (Nat.repr s1).data := rfl
  have hts2 : (toString s2 : String).data = (Nat.repr s2).data := rfl
  rw [hts, hts2] at hd2
  have hmain := digit_run_cancel (Nat.repr s1).data (Nat.repr s2).data
    r1.data r2.data (repr_digits s1) (repr_digits s2)
    (by intro c hc; rw [h1] at hc; cases hc; decide)
    (by intro c hc; rw [h2] at hc; cases hc; decide) hd2
  exact ⟨repr_injective s1 s2 (String.ext hmain.1), String.ext hmain.2⟩

theorem lossId_assoc (j : String) (s : Nat) (k : String) :
    lossId j s k = j ++ "_" ++ toString s ++ ("_loss_" ++ safe_key k) := by
  unfold lossId
  rw [String.append_assoc]

theorem systemId_assoc (j : String) (s : Nat) (k : String) :
    systemId j s k = j ++ "_" ++ toString s ++ ("_system_" ++ k) := by
  unfold systemId
  rw [String.append_assoc]

theorem infoId_assoc (j : String) (s : Nat) (k : String) :
    infoId j s k = j ++ "_" ++ toString s ++ ("_info_" ++ k) := by
  unfold infoId
  rw [String.append_assoc]

theorem head_loss (x : String) :
    (("_loss_" ++ x : String)).data.head? = some '_' := rfl

theorem head_system (x : String) :
    (("_system_" ++ x : String)).data.head? = some '_' := rfl

theorem head_info (x : String) :
    (("_info_" ++ x : String)).data.head? = some '_' := rfl

theorem tail_loss_ne_system (a b : String) :
    ("_loss_" ++ a : String) ≠ "_system_" ++ b := by
  intro h
  have hd := congrArg String.data h
  simp only [String.data_append] at hd
  have h3 : (['_', 'l', 'o', 's', 's', '_'] ++ a.data)[1]? =
      (['_', 's', 'y', 's', 't', 'e', 'm', '_'] ++ b.data)[1]? :=
    congrArg (fun l => l[1]?) hd
  rw [List.getElem?_append_left (by decide),
    List.getElem?_append_left (by decide)] at h3
  exact absurd h3 (by decide)

theorem tail_loss_ne_info (a b : String) :
    ("_loss_" ++ a : String) ≠ "_info_" ++ b := by
  intro h
  have hd := congrArg String.data h
  simp only [String.data_append] at hd
  have h3 : (['_', 'l', 'o', 's', 's', '_'] ++ a.data)[1]? =
      (['_', 'i', 'n', 'f', 'o', '_'] ++ b.data)[1]? :=
    congrArg (fun l => l[1]?) hd
  rw [List.getElem?_append_left (by decide),
    List.getElem?_append_left (by decide)] at h3
  exact absurd h3 (by decide)

theorem tail_loss_ne_lr (a : String) :
    ("_loss_" ++ a : String) ≠ "_lr" := by
  intro h
  have hd := congrArg String.data h
  simp only [String.data_append] at hd
  have h3 : (['_', 'l', 'o', 's', 's', '_'] ++ a.data)[2]? =
      (['_', 'l', 'r'] : List Char)[2]? := congrArg (fun l => l[2]?) hd
  rw [List.getElem?_append_left (by decide)] at h3
  exact absurd h3 (by decide)

theorem tail_system_ne_info (a b : String) :
    ("_system_" ++ a : String) ≠ "_info_" ++ b := by
  intro h
  have hd := congrArg String.data h
  simp only [String.data_append] at hd
  have h3 : (['_', 's', 'y', 's', 't', 'e', 'm', '_'] ++ a.data)[1]? =
      (['_', 'i', 'n', 'f', 'o', '_'] ++ b.data)[1]? :=
    congrArg (fun l => l[1]?) hd
  rw [List.getElem?_append_left (by decide),
    List.getElem?_append_left (by decide)] at h3
  exact absurd h3 (by decide)

theorem tail_system_ne_lr (a : String) :
    ("_system_" ++ a : String) ≠ "_lr" := by
  intro h
  have hd := congrArg String.data h
  simp only [String.data_append] at hd
  have h3 : (['_', 's', 'y', 's', 't', 'e', 'm', '_'] ++ a.data)[1]? =
      (['_', 'l', 'r'] : List Char)[1]? := congrArg (fun l => l[1]?) hd
  rw [List.getElem?_append_left (by decide)] at h3
  exact absurd h3 (by decide)

theorem tail_info_ne_lr (a : String) :
    ("_info_" ++ a : String) ≠ "_lr" := by
  intro h
  have hd := congrArg String.data h
  simp only [String.data_append] at hd
  have h3 : (['_', 'i', 'n', 'f', 'o', '_'] ++ a.data)[1]? =
      (['_', 'l', 'r'] : List Char)[1]? := congrArg (fun l => l[1]?) hd
  rw [List.getElem?_append_left (by decide)] at h3
  exact absurd h3 (by decide)

/-- Two loss ids for the same job coincide exactly when step and
sanitized metric name coincide. -/
theorem lossId_eq_iff (j : String) (s1 s2 : Nat) (k1 k2 : String) :
    lossId j s1 k1 = lossId j s2 k2 ↔
      s1 = s2 ∧ safe_key k1 = safe_key k2 := by
  constructor
  · intro h
    rw [lossId_assoc, lossId_assoc] at h
    have hc := stepTail_cancel j s1 s2 _ _ (head_loss _) (head_loss _) h
    exact ⟨hc.1, (string_append_left_cancel "_loss_" _ _).mp hc.2⟩
  · intro hk
    unfold lossId
    rw [hk.1, hk.2]

/-- Two system ids for the same job coincide exactly when step and kwargs
key coincide. -/
theorem systemId_eq_iff (j : String) (s1 s2 : Nat) (k1 k2 : String) :
    systemId j s1 k1 = systemId j s2 k2 ↔ s1 = s2 ∧ k1 = k2 := by
  constructor
  · intro h
    rw [systemId_assoc, systemId_assoc] at h
    have hc := stepTail_cancel j s1 s2 _ _ (head_system _) (head_system _) h
    exact ⟨hc.1, (string_append_left_cancel "_system_" _ _).mp hc.2⟩
  · intro hk
    unfold systemId
    rw [hk.1, hk.2]

/-- Two info ids for the same job coincide exactly when step and kwargs
key coincide. -/
theorem infoId_eq_iff (j : String) (s1 s2 : Nat) (k1 k2 : String) :
    infoId j s1 k1 = infoId j s2 k2 ↔ s1 = s2 ∧ k1 = k2 := by
  constructor
  · intro h
    rw [infoId_assoc, infoId_assoc] at h
    have hc := stepTail_cancel j s1 s2 _ _ (head_info _) (head_info _) h
    exact ⟨hc.1, (string_append_left_cancel "_info_" _ _).mp hc.2⟩
  · intro hk
    unfold infoId
    rw [hk.1, hk.2]

/-- Two learning-rate ids for the same job coincide exactly when the steps
coincide. -/
theorem lrId_eq_iff (j : String) (s1 s2 : Nat) :
    lrId j s1 = lrId j s2 ↔ s1 = s2 := by
  constructor
  · intro h
    unfold lrId at h
    have hc := stepTail_cancel j s1 s2 _ _
      (show ("_lr" : String).data.head? = some '_' from rfl)
      (show ("_lr" : String).data.head? = some '_' from rfl) h
    exact hc.1
  · intro hk
    unfold lrId
    rw [hk]

theorem lossId_ne_systemId (j : String) (s1 s2 : Nat) (k k2 : String) :
    lossId j s1 k ≠ systemId j s2 k2 := by
  intro h
  rw [lossId_assoc, systemId_assoc] at h
  have hc := stepTail_cancel j s1 s2 _ _ (head_loss _) (head_system _) h
  exact tail_loss_ne_system _ _ hc.2

theorem lossId_ne_infoId (j : String) (s1 s2 : Nat) (k k2 : String) :
    lossId j s1 k ≠ infoId j s2 k2 := by
  intro h
  rw [lossId_assoc, infoId_assoc] at h
  have hc := stepTail_cancel j s1 s2 _ _ (head_loss _) (head_info _) h
  exact tail_loss_ne_info _ _ hc.2

theorem lossId_ne_lrId (j : String) (s1 s2 : Nat) (k : String) :
    lossId j s1 k ≠ lrId j s2 := by
  intro h
  rw [lossId_assoc] at h
  have hc := stepTail_cancel j s1 s2 _ _ (head_loss _)
    (show ("_lr" : String).data.head? = some '_' from rfl) h
  exact tail_loss_ne_lr _ hc.2

theorem systemId_ne_infoId (j : String) (s1 s2 : Nat) (k k2 : String) :
    systemId j s1 k ≠ infoId j s2 k2 := by
  intro h
  rw [systemId_assoc, infoId_assoc] at h
  have hc := stepTail_cancel j s1 s2 _ _ (head_system _) (head_info _) h
  exact tail_system_ne_info _ _ hc.2

theorem systemId_ne_lrId (j : String) (s1 s2 : Nat) (k : String) :
    systemId j s1 k ≠ lrId j s2 := by
  intro h
  rw [systemId_assoc] at h
  have hc := stepTail_cancel j s1 s2 _ _ (head_system _)
    (show ("_lr" : String).data.head? = some '_' from rfl) h
  exact tail_system_ne_lr _ hc.2

theorem infoId_ne_lrId (j : String) (s1 s2 : Nat) (k : String) :
    infoId j s1 k ≠ lrId j s2 := by
  intro h
  rw [infoId_assoc] at h
  have hc := stepTail_cancel j s1 s2 _ _ (head_info _)
    (show ("_lr" : String).data.head? = some '_' from rfl) h
  exact tail_info_ne_lr _ hc.2

/-- A YAML scalar as `yaml.safe_load` hands it to Python: null, an integer,
a boolean, a float, or a string.  Python booleans are `int` instances, so
`isinstance(x, int)` accepts `yInt` and `yBool` and nothing else. -/
inductive YVal where
  | yNull
  | yInt (n : Int)
  | yBool (b : Bool)
  | yFloat (q : ℚ)
  | yStr (s : String)
deriving DecidableEq, Repr

/-- The parsed dynamic-config document: a key-value mapping with unique
keys, as loaded from `dynamic_config.yaml`. -/
abbrev ConfigDoc := List (String × YVal)

/-- Python `config.get(key, default)` restricted to present keys; returns
`none` when the key is absent. -/
def lookupDoc (d : ConfigDoc) (k : String) : Option YVal :=
  (d.find? fun p => p.1 = k).map fun p => p.2

/-- The on-disk config file: its parsed document and its modification time
(an `os.path.getmtime` value, modelled as a natural number; `0` is the
initial `last_modified` sentinel of the store). -/
structure ConfigFile where
  doc : ConfigDoc
  mtime : Nat
deriving DecidableEq, Repr

/-- The filesystem, as a map from paths to files (`none` = missing). -/
abbrev FS := String → Option ConfigFile

/-- Write a file at a path. -/
def fsUpdate (fs : FS) (path : String) (f : ConfigFile) : FS :=
  fun q => if q = path then some f else fs q

/-- In-memory state of a `DynamicConfig` object. -/
structure DCState where
  config_file : String
  last_modified : Nat
  config_cache : ConfigDoc
deriving Repr

/-- `os.path.join(save_root, name)` for the shapes used here: a separator
is inserted unless the root is empty or already ends in one. -/
def joinPath (root name : String) : String :=
  if root = "" then name
  else if root.data.getLast? = some '/' then root ++ name
  else root ++ "/" ++ name

/-- The default document written by `ensure_config_file`:
`sample_every: 100`, `save_every: None`, `log_every: None`, plus a
`last_updated` timestamp. -/
def defaultConfig (now : Nat) : ConfigDoc :=
  [("sample_every", .yInt 100), ("save_every", .yNull),
   ("log_every", .yNull), ("last_updated", .yFloat now)]

/-- `DynamicConfig.__init__`: the config path is
`os.path.join(save_root, 'dynamic_config.yaml')` — `job_name` is stored on
the object but takes no part in the path — then `ensure_config_file`
creates the file with the defaults when it is missing (`now` is the write
time, which becomes the new file's modification time). -/
def dcInit (job_name save_root : String) (fs : FS) (now : Nat) :
    DCState × FS :=
  let path := joinPath save_root "dynamic_config.yaml"
  let s : DCState := { config_file := path, last_modified := 0,
                       config_cache := [] }
  match fs path with
  | some _ => (s, fs)
  | none => (s, fsUpdate fs path { doc := defaultConfig now, mtime := now })

/-- `DynamicConfig.load_config`: if the file is missing, recreate it with
the defaults first; then read and parse it. -/
def load_config (fs : FS) (path : String) (now : Nat) : ConfigDoc × FS :=
  match fs path with
  | some f => (f.doc, fs)
  | none =>
      (defaultConfig now,
       fsUpdate fs path { doc := defaultConfig now, mtime := now })

/-- `DynamicConfig.check_and_update`: returns `{}` when the file is missing
(without recreating it); returns the cache when the modification time has
not advanced past `last_modified`; otherwise reloads the file, replaces the
cache, and records the new modification time.  Returns the document it
decided on, plus the updated object state and filesystem. -/
def check_and_update (fs : FS) (s : DCState) (now : Nat) :
    ConfigDoc × DCState × FS :=
  match fs s.config_file with
  | none => ([], s, fs)
  | some f =>
      if f.mtime ≤ s.last_modified then (s.config_cache, s, fs)
      else
        let r := load_config fs s.config_file now
        (r.1, { s with last_modified := f.mtime, config_cache := r.1 }, r.2)

/-- The validation shared by the three getters: a value passes exactly when
`isinstance(v, int) and v > 0` holds in Python (booleans are `int`
instances with values 1 and 0). -/
def yvalAsPosInt : YVal → Option Int
  | .yInt n => if 0 < n then some n else none
  | .yBool b => if b then some 1 else none
  | _ => none

/-- `DynamicConfig.get_sample_every`. -/
def get_sample_every (fs : FS) (s : DCState) (dflt : Int) (now : Nat) :
    Int × DCState × FS :=
  let r := check_and_update fs s now
  match lookupDoc r.1 "sample_every" with
  | some v => ((yvalAsPosInt v).getD dflt, r.2.1, r.2.2)
  | none => (dflt, r.2.1, r.2.2)

/-- `DynamicConfig.get_save_every`: a present `None` value and an absent
key both fall back to the caller default; a positive integer wins. -/
def get_save_every (fs : FS) (s : DCState) (dflt : Option Int) (now : Nat) :
    Option Int × DCState × FS :=
  let r := check_and_update fs s now
  match lookupDoc r.1 "save_every" with
  | some v =>
      (match yvalAsPosInt v with
       | some n => some n
       | none => dflt, r.2.1, r.2.2)
  | none => (dflt, r.2.1, r.2.2)

/-- `DynamicConfig.get_log_every`: same shape as `get_save_every`. -/
def get_log_every (fs : FS) (s : DCState) (dflt : Option Int) (now : Nat) :
    Option Int × DCState × FS :=
  let r := check_and_update fs s now
  match lookupDoc r.1 "log_every" with
  | some v =>
      (match yvalAsPosInt v with
       | some n => some n
       | none => dflt, r.2.1, r.2.2)
  | none => (dflt, r.2.1, r.2.2)

/-- A trivial stand-in for Python's string hash, used to instantiate
concrete examples. -/
def hash0 : String → Int := fun _ => 0

/-- A concrete event used in witnesses. -/
def evA : MetricEvent :=
  { id := "j_1_lr", job_id := "j", step := 1, timestamp := "t",
    metric_type := "learning_rate", metric_name := "lr", value := .fin 1 }

/-- C1 fails as stated, twice over.  Same job and step: the loss keys
`"a/b"` and `"a-b"` are distinct metric names for the same job, step and
metric type, yet sanitization maps both ids to `"j_1_loss_a_b"`, so a
successful flush leaves one row where the claim requires two.  Distinct
jobs: underscores in a job id make the encoding ambiguous, so job `"a"` at
step 1 with loss key `"b_2_loss_c"` and job `"a_1_loss_b"` at step 2 with
loss key `"c"` — distinct (job_id, step, metric_type, metric_name) tuples —
also derive the same id, and their two events upsert into one row. -/
theorem claim1_counterexample :
    ((logStepEvents hash0 "j" 1 "t"
        [("a/b", .pyInt 1), ("a-b", .pyInt 2)] .pyNone []).map
      (fun e => (e.metric_type, e.metric_name)) =
        [("loss", "a/b"), ("loss", "a-b")]) ∧
    ((logStepEvents hash0 "j" 1 "t"
        [("a/b", .pyInt 1), ("a-b", .pyInt 2)] .pyNone []).map
      (fun e => e.id) = ["j_1_loss_a_b", "j_1_loss_a_b"]) ∧
    ((flush
        { job_id := "j", db_path := "p",
          buffer := logStepEvents hash0 "j" 1 "t"
            [("a/b", .pyInt 1), ("a-b", .pyInt 2)] .pyNone [],
          buffer_size := 10 } [] true).store.length = 1) ∧
    (lossId "a" 1 "b_2_loss_c" = lossId "a_1_loss_b" 2 "c") ∧
    (("a" : String) ≠ "a_1_loss_b") ∧
    (((lossEvents "a" 1 "t" [("b_2_loss_c", .pyInt 1)] ++
        lossEvents "a_1_loss_b" 2 "t" [("c", .pyInt 2)]).foldl upsert
      []).length = 1) := by
  decide

/-- C1 (amended): the id derivation is deterministic; for a fixed job id it
is collision-free across distinct (step, metric_type, metric_name) triples,
except that two loss metric names colliding after key sanitization share an
id; across distinct job ids it is not collision-free (underscores in a job
id make the encoding ambiguous); after a successful flush the store holds
exactly one row per distinct id, with the latest reported value for that
id. -/
theorem claim1_amended :
    (∀ j s1 s2 k1 k2, lossId j s1 k1 = lossId j s2 k2 ↔
      s1 = s2 ∧ safe_key k1 = safe_key k2) ∧
    (∀ j s1 s2 k1 k2, systemId j s1 k1 = systemId j s2 k2 ↔
      s1 = s2 ∧ k1 = k2) ∧
    (∀ j s1 s2 k1 k2, infoId j s1 k1 = infoId j s2 k2 ↔
      s1 = s2 ∧ k1 = k2) ∧
    (∀ j s1 s2, lrId j s1 = lrId j s2 ↔ s1 = s2) ∧
    (∀ j s1 s2 k k2, lossId j s1 k ≠ systemId j s2 k2 ∧
      lossId j s1 k ≠ infoId j s2 k2 ∧ lossId j s1 k ≠ lrId j s2 ∧
      systemId j s1 k ≠ infoId j s2 k2 ∧ systemId j s1 k ≠ lrId j s2 ∧
      infoId j s1 k ≠ lrId j s2) ∧
    (∀ (db : Store) (evs : List MetricEvent), idsNodup db →
      idsNodup (evs.foldl upsert db)) ∧
    (∀ (db : Store) (evs : List MetricEvent) (i : String),
      findRow (evs.foldl upsert db) i =
        evs.foldl (fun acc e => if e.id = i then some e else acc)
          (findRow db i)) :=
  ⟨lossId_eq_iff, systemId_eq_iff, infoId_eq_iff, lrId_eq_iff,
   fun j s1 s2 k k2 =>
     ⟨lossId_ne_systemId j s1 s2 k k2, lossId_ne_infoId j s1 s2 k k2,
      lossId_ne_lrId j s1 s2 k, systemId_ne_infoId j s1 s2 k k2,
      systemId_ne_lrId j s1 s2 k, infoId_ne_lrId j s1 s2 k⟩,
   fun db evs h => idsNodup_foldl_upsert evs db h,
   fun db evs i => findRow_foldl_upsert evs db i⟩

theorem claim1_witness :
    idsNodup ([] : Store) ∧ idsNodup ([evA].foldl upsert []) :=
  ⟨by decide, claim1_amended.2.2.2.2.2.1 [] [evA] (by decide)⟩

/-- C2: `flush` with an empty buffer is a no-op that attempts no storage
write; a failed write leaves both the table and the buffered events
untouched; a successful write drains the whole buffer in one batched
upsert and clears it. -/
theorem claim2_thm : ∀ (s : CollectorState) (db : Store) (ok : Bool),
    (s.buffer = [] → flush s db ok = ⟨s, db, false⟩) ∧
    ((flush s db false).store = db ∧
      (flush s db false).state.buffer = s.buffer) ∧
    (s.buffer ≠ [] → flush s db true =
      ⟨{ s with buffer := [] }, s.buffer.foldl upsert db, true⟩) := by
  intro s db ok
  refine ⟨?_, ⟨?_, ?_⟩, ?_⟩
  · intro h
    simp [flush, h]
  · by_cases h : s.buffer.isEmpty <;> simp [flush, h]
  · by_cases h : s.buffer.isEmpty <;> simp [flush, h]
  · intro h
    have h2 : s.buffer.isEmpty = false := by
      simpa using h
    simp [flush, h2]

theorem claim2_witness :
    flush { job_id := "j", db_path := "p", buffer := [], buffer_size := 10 }
        [] true =
      ⟨{ job_id := "j", db_path := "p", buffer := [], buffer_size := 10 },
        [], false⟩ ∧
    (flush
      { job_id := "j", db_path := "p", buffer := [evA],
        buffer_size := 10 } [] false).store = [] ∧
    flush
      { job_id := "j", db_path := "p", buffer := [evA],
        buffer_size := 10 } [] true =
      ⟨{ job_id := "j", db_path := "p", buffer := [], buffer_size := 10 },
        [evA].foldl upsert [], true⟩ :=
  ⟨(claim2_thm _ [] true).1 rfl,
   (claim2_thm
     { job_id := "j", db_path := "p", buffer := [evA],
       buffer_size := 10 } [] false).2.1.1,
   (claim2_thm
     { job_id := "j", db_path := "p", buffer := [evA],
       buffer_size := 10 } [] true).2.2 (by decide)⟩

theorem log_step_metrics_under (pyHash : String → Int) (s : CollectorState)
    (db : Store) (ok : Bool) (step : Nat) (ts : String)
    (loss_dict : List (String × PyVal)) (lr : PyVal)
    (kwargs : List (String × PyVal))
    (h : (s.buffer ++
        logStepEvents pyHash s.job_id step ts loss_dict lr kwargs).length <
      s.buffer_size) :
    log_step_metrics pyHash s db ok step ts loss_dict lr kwargs =
      ⟨{ s with buffer := s.buffer ++
          logStepEvents pyHash s.job_id step ts loss_dict lr kwargs },
        db, false⟩ := by
  unfold log_step_metrics
  rw [if_neg (by simpa using Nat.not_le.mpr h)]

theorem log_step_metrics_over (pyHash : String → Int) (s : CollectorState)
    (db : Store) (step : Nat) (ts : String)
    (loss_dict : List (String × PyVal)) (lr : PyVal)
    (kwargs : List (String × PyVal)) (hpos : 0 < s.buffer_size)
    (h : s.buffer_size ≤ (s.buffer ++
        logStepEvents pyHash s.job_id step ts loss_dict lr kwargs).length) :
    log_step_metrics pyHash s db true step ts loss_dict lr kwargs =
      ⟨{ s with buffer := [] },
        (s.buffer ++
          logStepEvents pyHash s.job_id step ts loss_dict lr kwargs).foldl
          upsert db, true⟩ := by
  unfold log_step_metrics
  rw [if_pos (by simpa using h)]
  have hne : (s.buffer ++
      logStepEvents pyHash s.job_id step ts loss_dict lr kwargs).isEmpty =
        false := by
    rw [List.isEmpty_eq_false_iff_exists_mem]
    rcases List.exists_mem_of_length_pos (Nat.lt_of_lt_of_le hpos h) with
      ⟨x, hx⟩
    exact ⟨x, hx⟩
  unfold flush
  simp only [hne]
  rfl

/-- C3: a report that brings the buffer to the threshold (10 after
`__init__`) or beyond triggers exactly one synchronous flush before
returning, emptying the buffer when the write succeeds; a report that
stays below the threshold only appends, leaving the events buffered and
storage untouched. -/
theorem claim3_thm : ∀ (pyHash : String → Int) (s : CollectorState)
    (db : Store) (ok : Bool) (step : Nat) (ts : String)
    (loss_dict : List (String × PyVal)) (lr : PyVal)
    (kwargs : List (String × PyVal)),
    (∀ j p dflt, (collectorInit j p dflt).buffer_size = 10) ∧
    ((s.buffer ++
        logStepEvents pyHash s.job_id step ts loss_dict lr kwargs).length <
      s.buffer_size →
      log_step_metrics pyHash s db ok step ts loss_dict lr kwargs =
        ⟨{ s with buffer := s.buffer ++
            logStepEvents pyHash s.job_id step ts loss_dict lr kwargs },
          db, false⟩) ∧
    (0 < s.buffer_size →
      s.buffer_size ≤ (s.buffer ++
        logStepEvents pyHash s.job_id step ts loss_dict lr kwargs).length →
      log_step_metrics pyHash s db true step ts loss_dict lr kwargs =
        ⟨{ s with buffer := [] },
          (s.buffer ++
            logStepEvents pyHash s.job_id step ts loss_dict lr
              kwargs).foldl upsert db, true⟩) :=
  fun pyHash s db ok step ts loss_dict lr kwargs =>
    ⟨fun _ _ _ => rfl,
     fun h => log_step_metrics_under pyHash s db ok step ts loss_dict lr
       kwargs h,
     fun hpos h => log_step_metrics_over pyHash s db step ts loss_dict lr
       kwargs hpos h⟩

/-- Nine loss entries, used to drive the buffer to threshold minus one. -/
def d9 : List (String × PyVal) :=
  [("l1", .pyInt 1), ("l2", .pyInt 2), ("l3", .pyInt 3), ("l4", .pyInt 4),
   ("l5", .pyInt 5), ("l6", .pyInt 6), ("l7", .pyInt 7), ("l8", .pyInt 8),
   ("l9", .pyInt 9)]

/-- A fresh collector for job `"j"`. -/
def c0w : CollectorState :=
  { job_id := "j", db_path := "p", buffer := [], buffer_size := 10 }

/-- The collector after reporting the nine `d9` events: buffer at
threshold minus one. -/
def c9w : CollectorState :=
  { c0w with buffer := logStepEvents hash0 "j" 1 "t" d9 .pyNone [] }

theorem claim3_witness :
    log_step_metrics hash0 c0w [] true 1 "t" d9 .pyNone [] =
      ⟨{ c0w with buffer := c0w.buffer ++
          logStepEvents hash0 c0w.job_id 1 "t" d9 .pyNone [] }, [], false⟩ ∧
    c9w.buffer ≠ [] ∧
    log_step_metrics hash0 c9w [] true 2 "t2" [("a", .pyInt 3)] .pyNone [] =
      ⟨{ c9w with buffer := [] },
        (c9w.buffer ++
          logStepEvents hash0 c9w.job_id 2 "t2" [("a", .pyInt 3)] .pyNone
            []).foldl upsert [], true⟩ :=
  ⟨(claim3_thm hash0 c0w [] true 1 "t" d9 .pyNone []).2.1 (by decide),
   by decide,
   (claim3_thm hash0 c9w [] true 2 "t2" [("a", .pyInt 3)] .pyNone []).2.2
     (by decide) (by decide)⟩

theorem lossEvents_skip (j : String) (s : Nat) (ts : String)
    (d1 d2 : List (String × PyVal)) (k : String) (v : PyVal)
    (h : isReportableNum v = false) :
    lossEvents j s ts (d1 ++ (k, v) :: d2) = lossEvents j s ts (d1 ++ d2) := by
  unfold lossEvents
  rw [List.filterMap_append, List.filterMap_append,
    List.filterMap_cons_none]
  simp [h]

theorem lrEvent_skip (j : String) (s : Nat) (ts : String) (v : PyVal)
    (h : isReportableNum v = false) : lrEvent j s ts v = none := by
  simp [lrEvent, h]

theorem kwargsEvent_skip (pyHash : String → Int) (j : String) (s : Nat)
    (ts : String) (k : String) (v : PyVal) (h : isReportableNum v = false)
    (hstr : ∀ t, v = .pyStr t → 100 ≤ t.length) :
    kwargsEvent pyHash j s ts k v = none := by
  unfold kwargsEvent
  by_cases hn : v = PyVal.pyNone
  · rw [if_pos hn]
  · rw [if_neg hn, if_neg (by simp [h])]
    cases v with
    | pyStr t =>
        have := hstr t rfl
        simp [Nat.not_lt.mpr this]
    | pyInt n => rfl
    | pyBool b => rfl
    | pyFloat f => rfl
    | pyNone => rfl
    | pyOther => rfl

theorem kwargsEvents_skip (pyHash : String → Int) (j : String) (s : Nat)
    (ts : String) (kw1 kw2 : List (String × PyVal)) (k : String) (v : PyVal)
    (h : isReportableNum v = false)
    (hstr : ∀ t, v = .pyStr t → 100 ≤ t.length) :
    kwargsEvents pyHash j s ts (kw1 ++ (k, v) :: kw2) =
      kwargsEvents pyHash j s ts (kw1 ++ kw2) := by
  unfold kwargsEvents
  rw [List.filterMap_append, List.filterMap_append,
    List.filterMap_cons_none]
  exact kwargsEvent_skip pyHash j s ts k v h hstr

/-- C5 fails as stated on infinities: `float('inf')` cannot be interpreted
as a finite number, yet the guard only rejects NaN, so an infinite loss
value is buffered and a successful flush stores a row for it. -/
theorem claim5_counterexample :
    lossEvents "j" 1 "t" [("a", .pyFloat (.inf false))] =
      [{ id := "j_1_loss_a", job_id := "j", step := 1, timestamp := "t",
         metric_type := "loss", metric_name := "a",
         value := .inf false }] ∧
    (flush
      { job_id := "j", db_path := "p",
        buffer := lossEvents "j" 1 "t" [("a", .pyFloat (.inf false))],
        buffer_size := 10 } [] true).store =
      [{ id := "j_1_loss_a", job_id := "j", step := 1, timestamp := "t",
         metric_type := "loss", metric_name := "a",
         value := .inf false }] := by
  decide

/-- C5 (amended): `report` never fails the caller and silently skips any
value that is not a number at all (for kwargs: nor a short string) as well
as any NaN value; a skipped value contributes no buffered event and hence
no stored row.  (Infinities, however, count as numbers and are kept.) -/
theorem claim5_thm : ∀ (pyHash : String → Int) (j : String) (s : Nat)
    (ts : String) (d1 d2 kw1 kw2 : List (String × PyVal)) (k : String)
    (v : PyVal),
    (isReportableNum v = false →
      lossEvents j s ts (d1 ++ (k, v) :: d2) =
        lossEvents j s ts (d1 ++ d2)) ∧
    (isReportableNum v = false → lrEvent j s ts v = none) ∧
    (isReportableNum v = false → (∀ t, v = .pyStr t → 100 ≤ t.length) →
      kwargsEvents pyHash j s ts (kw1 ++ (k, v) :: kw2) =
        kwargsEvents pyHash j s ts (kw1 ++ kw2)) :=
  fun pyHash j s ts d1 d2 kw1 kw2 k v =>
    ⟨fun h => lossEvents_skip j s ts d1 d2 k v h,
     fun h => lrEvent_skip j s ts v h,
     fun h hstr => kwargsEvents_skip pyHash j s ts kw1 kw2 k v h hstr⟩

theorem claim5_witness :
    lossEvents "j" 1 "t" ([("good", .pyInt 1)] ++
        [("bad", .pyFloat .nan)] ++ [("tail", .pyInt 2)]) =
      lossEvents "j" 1 "t" ([("good", .pyInt 1)] ++ [("tail", .pyInt 2)]) ∧
    lrEvent "j" 1 "t" (.pyFloat .nan) = none ∧
    kwargsEvents hash0 "j" 1 "t" ([] ++ [("bad", .pyFloat .nan)]) =
      kwargsEvents hash0 "j" 1 "t" ([] ++ []) :=
  ⟨(claim5_thm hash0 "j" 1 "t" [("good", .pyInt 1)] [("tail", .pyInt 2)]
      [] [] "bad" (.pyFloat .nan)).1 (by decide),
   (claim5_thm hash0 "j" 1 "t" [] [] [] [] "bad" (.pyFloat .nan)).2.1
     (by decide),
   (claim5_thm hash0 "j" 1 "t" [] [] [] [] "bad" (.pyFloat .nan)).2.2
     (by decide) (fun t h => absurd h (by simp))⟩

/-- C10: a kwargs string value shorter than 100 characters is recorded as
an `info` event whose stored value is `hash(value) % 1000000`; strings of
length 100 or more, and `None`, produce no event. -/
theorem claim10_thm : ∀ (pyHash : String → Int) (j : String) (s : Nat)
    (ts : String) (k : String) (str : String),
    (str.length < 100 → kwargsEvent pyHash j s ts k (.pyStr str) =
      some { id := infoId j s k, job_id := j, step := s, timestamp := ts,
             metric_type := "info", metric_name := k,
             value := .fin ((pyHash str % 1000000 : Int) : ℚ) }) ∧
    (100 ≤ str.length → kwargsEvent pyHash j s ts k (.pyStr str) = none) ∧
    (kwargsEvent pyHash j s ts k .pyNone = none) := by
  intro pyHash j s ts k str
  refine ⟨?_, ?_, ?_⟩
  · intro h
    simp [kwargsEvent, isReportableNum, h]
  · intro h
    simp [kwargsEvent, isReportableNum, Nat.not_lt.mpr h]
  · rfl

theorem claim10_witness :
    ("hi" : String).length < 100 ∧
    kwargsEvent hash0 "j" 1 "t" "note" (.pyStr "hi") =
      some { id := infoId "j" 1 "note", job_id := "j", step := 1,
             timestamp := "t", metric_type := "info", metric_name := "note",
             value := .fin ((hash0 "hi" % 1000000 : Int) : ℚ) } :=
  ⟨by decide, (claim10_thm hash0 "j" 1 "t" "note" "hi").1 (by decide)⟩

/-- C8: the first `get_collector` call for a job id constructs and stores a
collector; later calls with the same id return the stored instance and
ignore their `db_path` argument; `cleanup_collector` runs the final flush
and removes the entry, and is a no-op on an unknown job id. -/
theorem claim8_thm : ∀ (dflt : String) (reg : Registry) (j : String)
    (p p2 : Option String) (db : Store) (ok : Bool) (c : CollectorState),
    (regFind reg j = none → get_collector dflt reg j p =
      (collectorInit j p dflt, reg ++ [(j, collectorInit j p dflt)])) ∧
    (regFind reg j = none → regFind (get_collector dflt reg j p).2 j =
      some (collectorInit j p dflt)) ∧
    (regFind reg j = some c → get_collector dflt reg j p2 = (c, reg)) ∧
    (regFind reg j = some c → cleanup_collector reg j db ok =
      (reg.filter fun q => ¬ q.1 = j, (flush c db ok).store)) ∧
    (regFind reg j = some c →
      regFind (cleanup_collector reg j db ok).1 j = none) ∧
    (regFind reg j = none → cleanup_collector reg j db ok = (reg, db)) := by
  intro dflt reg j p p2 db ok c
  refine ⟨?_, ?_, ?_, ?_, ?_, ?_⟩
  · intro h
    unfold get_collector
    rw [h]
  · intro h
    unfold get_collector
    rw [h]
    exact regFind_append_self reg j _ h
  · intro h
    unfold get_collector
    rw [h]
  · intro h
    unfold cleanup_collector
    rw [h]
  · intro h
    unfold cleanup_collector
    rw [h]
    exact regFind_filter_ne reg j
  · intro h
    unfold cleanup_collector
    rw [h]

theorem claim8_witness :
    get_collector "d" [] "a" (some "loc") =
      (collectorInit "a" (some "loc") "d",
       [] ++ [("a", collectorInit "a" (some "loc") "d")]) ∧
    regFind (get_collector "d" [] "a" (some "loc")).2 "a" =
      some (collectorInit "a" (some "loc") "d") ∧
    get_collector "d" [("a", c0w)] "a" (some "other") = (c0w, [("a", c0w)]) ∧
    cleanup_collector [("a", c0w)] "a" [] true =
      ([("a", c0w)].filter fun q => ¬ q.1 = "a", (flush c0w [] true).store) ∧
    regFind (cleanup_collector [("a", c0w)] "a" [] true).1 "a" = none ∧
    cleanup_collector [] "a" [] true = ([], []) :=
  ⟨(claim8_thm "d" [] "a" (some "loc") none [] true c0w).1 rfl,
   (claim8_thm "d" [] "a" (some "loc") none [] true c0w).2.1 rfl,
   (claim8_thm "d" [("a", c0w)] "a" none (some "other") [] true c0w).2.2.1
     (by decide),
   (claim8_thm "d" [("a", c0w)] "a" none none [] true c0w).2.2.2.1
     (by decide),
   (claim8_thm "d" [("a", c0w)] "a" none none [] true c0w).2.2.2.2.1
     (by decide),
   (claim8_thm "d" [] "a" none none [] true c0w).2.2.2.2.2 rfl⟩

theorem check_and_update_missing (fs : FS) (s : DCState) (now : Nat)
    (h : fs s.config_file = none) :
    check_and_update fs s now = ([], s, fs) := by
  unfold check_and_update
  rw [h]

theorem check_and_update_cached (fs : FS) (s : DCState) (now : Nat)
    (f : ConfigFile) (h : fs s.config_file = some f)
    (hm : f.mtime ≤ s.last_modified) :
    check_and_update fs s now = (s.config_cache, s, fs) := by
  unfold check_and_update
  rw [h]
  simp [hm]

theorem check_and_update_reload (fs : FS) (s : DCState) (now : Nat)
    (f : ConfigFile) (h : fs s.config_file = some f)
    (hm : s.last_modified < f.mtime) :
    check_and_update fs s now =
      (f.doc, { s with last_modified := f.mtime, config_cache := f.doc },
        fs) := by
  unfold check_and_update
  rw [h]
  dsimp only
  rw [if_neg (Nat.not_le.mpr hm)]
  unfold load_config
  rw [h]

theorem get_sample_every_missing (fs : FS) (s : DCState) (d : Int)
    (now : Nat) (h : fs s.config_file = none) :
    (get_sample_every fs s d now).1 = d := by
  unfold get_sample_every
  rw [check_and_update_missing fs s now h]
  rfl

theorem get_save_every_missing (fs : FS) (s : DCState) (d : Option Int)
    (now : Nat) (h : fs s.config_file = none) :
    (get_save_every fs s d now).1 = d := by
  unfold get_save_every
  rw [check_and_update_missing fs s now h]
  rfl

theorem get_log_every_missing (fs : FS) (s : DCState) (d : Option Int)
    (now : Nat) (h : fs s.config_file = none) :
    (get_log_every fs s d now).1 = d := by
  unfold get_log_every
  rw [check_and_update_missing fs s now h]
  rfl

theorem get_sample_every_invalid (fs : FS) (s : DCState) (d : Int)
    (now : Nat) (v : YVal)
    (h : lookupDoc (check_and_update fs s now).1 "sample_every" = some v)
    (hv : yvalAsPosInt v = none) : (get_sample_every fs s d now).1 = d := by
  unfold get_sample_every
  dsimp only
  rw [h]
  dsimp only
  rw [hv]
  rfl

theorem get_save_every_invalid (fs : FS) (s : DCState) (d : Option Int)
    (now : Nat) (v : YVal)
    (h : lookupDoc (check_and_update fs s now).1 "save_every" = some v)
    (hv : yvalAsPosInt v = none) : (get_save_every fs s d now).1 = d := by
  unfold get_save_every
  dsimp only
  rw [h]
  dsimp only
  rw [hv]

theorem get_log_every_invalid (fs : FS) (s : DCState) (d : Option Int)
    (now : Nat) (v : YVal)
    (h : lookupDoc (check_and_update fs s now).1 "log_every" = some v)
    (hv : yvalAsPosInt v = none) : (get_log_every fs s d now).1 = d := by
  unfold get_log_every
  dsimp only
  rw [h]
  dsimp only
  rw [hv]

/-- The totally empty filesystem. -/
def fsEmpty : FS := fun _ => none

/-- A store state whose config file path points at a missing file. -/
def s0dc : DCState :=
  { config_file := "output/dynamic_config.yaml", last_modified := 0,
    config_cache := [] }

/-- C4 fails as stated: with the config file missing, a `get_*` call does
return the caller default, but `check_and_update` returns `{}` without
recreating the file — afterwards the file still does not exist. -/
theorem claim4_counterexample :
    (get_sample_every fsEmpty s0dc 7 5).1 = 7 ∧
    (get_sample_every fsEmpty s0dc 7 5).2.2 "output/dynamic_config.yaml" =
      none := by
  decide

/-- C4 (amended): on each `get_*` call the store compares the file's
modification time with the last-observed one: a missing file yields an
empty document (so the caller default) while leaving the state and the
filesystem untouched — the file is not recreated; an unchanged (not
advanced) modification time yields the cached document and leaves the
state untouched; an advanced modification time (the first check included,
since the last-observed time starts at 0) re-reads the file, replaces the
cache, records the new modification time and returns the fresh document. -/
theorem claim4_thm : ∀ (fs : FS) (s : DCState) (now : Nat) (f : ConfigFile)
    (d : Int) (dO : Option Int),
    (fs s.config_file = none → check_and_update fs s now = ([], s, fs)) ∧
    (fs s.config_file = none → (get_sample_every fs s d now).1 = d ∧
      (get_save_every fs s dO now).1 = dO ∧
      (get_log_every fs s dO now).1 = dO) ∧
    (fs s.config_file = some f → f.mtime ≤ s.last_modified →
      check_and_update fs s now = (s.config_cache, s, fs)) ∧
    (fs s.config_file = some f → s.last_modified < f.mtime →
      check_and_update fs s now =
        (f.doc, { s with last_modified := f.mtime, config_cache := f.doc },
          fs)) :=
  fun fs s now f d dO =>
    ⟨fun h => check_and_update_missing fs s now h,
     fun h => ⟨get_sample_every_missing fs s d now h,
       get_save_every_missing fs s dO now h,
       get_log_every_missing fs s dO now h⟩,
     fun h hm => check_and_update_cached fs s now f h hm,
     fun h hm => check_and_update_reload fs s now f h hm⟩

/-- A one-file filesystem holding a config document at path `"p"` with
modification time 3. -/
def fsA : FS :=
  fun q => if q = "p" then
    some { doc := [("sample_every", .yInt 25)], mtime := 3 } else none

/-- A store state that has already observed modification time 3. -/
def sCached : DCState :=
  { config_file := "p", last_modified := 3,
    config_cache := [("sample_every", .yInt 7)] }

/-- A store state that has not yet observed the file. -/
def sStale : DCState :=
  { config_file := "p", last_modified := 0, config_cache := [] }

theorem claim4_witness :
    check_and_update fsEmpty s0dc 5 = ([], s0dc, fsEmpty) ∧
    (get_sample_every fsEmpty s0dc 7 5).1 = 7 ∧
    check_and_update fsA sCached 5 =
      (sCached.config_cache, sCached, fsA) ∧
    check_and_update fsA sStale 5 =
      ([("sample_every", .yInt 25)],
        { sStale with last_modified := 3, config_cache := [("sample_every", .yInt 25)] },
        fsA) :=
  ⟨(claim4_thm fsEmpty s0dc 5 { doc := [], mtime := 0 } 7 none).1 rfl,
   ((claim4_thm fsEmpty s0dc 5 { doc := [], mtime := 0 } 7 none).2.1
     rfl).1,
   (claim4_thm fsA sCached 5
     { doc := [("sample_every", .yInt 25)], mtime := 3 } 7 none).2.2.1 rfl
     (by decide),
   (claim4_thm fsA sStale 5
     { doc := [("sample_every", .yInt 25)], mtime := 3 } 7 none).2.2.2 rfl
     (by decide)⟩

/-- C6: a cadence key that is present but null, a string, a float, or a
non-positive integer fails the `isinstance(v, int) and v > 0` validation,
so each getter falls back to the caller-supplied default (and, being a
total function, never raises).  Note Python booleans are `int` instances:
`True` validates as 1. -/
theorem claim6_thm : ∀ (fs : FS) (s : DCState) (now : Nat) (d : Int)
    (dO : Option Int) (v : YVal),
    yvalAsPosInt .yNull = none ∧
    (∀ t, yvalAsPosInt (.yStr t) = none) ∧
    (∀ q, yvalAsPosInt (.yFloat q) = none) ∧
    (∀ n : Int, n ≤ 0 → yvalAsPosInt (.yInt n) = none) ∧
    (lookupDoc (check_and_update fs s now).1 "sample_every" = some v →
      yvalAsPosInt v = none → (get_sample_every fs s d now).1 = d) ∧
    (lookupDoc (check_and_update fs s now).1 "save_every" = some v →
      yvalAsPosInt v = none → (get_save_every fs s dO now).1 = dO) ∧
    (lookupDoc (check_and_update fs s now).1 "log_every" = some v →
      yvalAsPosInt v = none → (get_log_every fs s dO now).1 = dO) :=
  fun fs s now d dO v =>
    ⟨rfl, fun t => rfl, fun q => rfl,
     fun n hn => by simp [yvalAsPosInt, Int.not_lt.mpr hn],
     fun h hv => get_sample_every_invalid fs s d now v h hv,
     fun h hv => get_save_every_invalid fs s dO now v h hv,
     fun h hv => get_log_every_invalid fs s dO now v h hv⟩

/-- A config file whose cadence keys are all present but invalid:
`sample_every: null`, `save_every: "none"`, `log_every: 0`. -/
def fsInvalid : FS :=
  fun q => if q = "p" then
    some { doc := [("sample_every", .yNull), ("save_every", .yStr "none"),
                   ("log_every", .yInt 0)], mtime := 3 } else none

theorem claim6_witness :
    (get_sample_every fsInvalid sStale 77 5).1 = 77 ∧
    (get_save_every fsInvalid sStale (some 500) 5).1 = some 500 ∧
    (get_log_every fsInvalid sStale none 5).1 = none :=
  ⟨(claim6_thm fsInvalid sStale 5 77 none .yNull).2.2.2.2.1 (by decide)
     rfl,
   (claim6_thm fsInvalid sStale 5 77 (some 500) (.yStr "none")).2.2.2.2.2.1
     (by decide) rfl,
   (claim6_thm fsInvalid sStale 5 77 none (.yInt 0)).2.2.2.2.2.2
     (by decide) rfl⟩

/-- C7 fails as stated: the constructor joins only the root directory with
`dynamic_config.yaml` — the job id takes no part in the path, so for job
`"job1"` under root `"output"` the file lands at
`output/dynamic_config.yaml`, not `output/job1/dynamic_config.yaml`. -/
theorem claim7_counterexample :
    (dcInit "job1" "output" fsEmpty 5).1.config_file =
      "output/dynamic_config.yaml" ∧
    (dcInit "job1" "output" fsEmpty 5).1.config_file ≠
      "output/job1/dynamic_config.yaml" := by
  decide

/-- C7 (amended): construction computes the config path as
`<root_directory>/dynamic_config.yaml` (the job id is stored but unused in
the path), and when that file is missing creates it with the defaults
`sample_every=100`, `save_every=null`, `log_every=null` (plus a
`last_updated` stamp); consequently, with the file absent beforehand,
`get_save_every(500)` right after construction returns 500 while the
created file holds `save_every: null`. -/
theorem claim7_thm : ∀ (job root : String) (fs : FS) (now : Nat),
    0 < now → fs (joinPath root "dynamic_config.yaml") = none →
    (dcInit job root fs now).1.config_file =
      joinPath root "dynamic_config.yaml" ∧
    (dcInit job root fs now).2 (joinPath root "dynamic_config.yaml") =
      some { doc := defaultConfig now, mtime := now } ∧
    lookupDoc (defaultConfig now) "sample_every" = some (.yInt 100) ∧
    lookupDoc (defaultConfig now) "save_every" = some .yNull ∧
    lookupDoc (defaultConfig now) "log_every" = some .yNull ∧
    (get_save_every (dcInit job root fs now).2 (dcInit job root fs now).1
        (some 500) now).1 = some 500 := by
  intro job root fs now hpos hmiss
  have h1 : dcInit job root fs now =
      ({ config_file := joinPath root "dynamic_config.yaml",
         last_modified := 0, config_cache := [] },
       fsUpdate fs (joinPath root "dynamic_config.yaml")
         { doc := defaultConfig now, mtime := now }) := by
    unfold dcInit
    dsimp only
    rw [hmiss]
  have h2 : (fsUpdate fs (joinPath root "dynamic_config.yaml")
      { doc := defaultConfig now, mtime := now })
        (joinPath root "dynamic_config.yaml") =
      some { doc := defaultConfig now, mtime := now } := by
    simp [fsUpdate]
  refine ⟨by rw [h1], by rw [h1]; exact h2, rfl, rfl, rfl, ?_⟩
  rw [h1]
  have h3 : check_and_update
      (fsUpdate fs (joinPath root "dynamic_config.yaml")
        { doc := defaultConfig now, mtime := now })
      { config_file := joinPath root "dynamic_config.yaml",
        last_modified := 0, config_cache := [] } now =
      (defaultConfig now,
       { config_file := joinPath root "dynamic_config.yaml",
         last_modified := now, config_cache := defaultConfig now },
       fsUpdate fs (joinPath root "dynamic_config.yaml")
         { doc := defaultConfig now, mtime := now }) :=
    check_and_update_reload _ _ now _ h2 hpos
  have h4 : lookupDoc (defaultConfig now) "save_every" = some .yNull := rfl
  unfold get_save_every
  dsimp only
  rw [h3]
  dsimp only
  rw [h4]
  rfl

theorem claim7_witness :
    (0 : Nat) < 1 ∧ fsEmpty (joinPath "output" "dynamic_config.yaml") = none ∧
    (dcInit "job1" "output" fsEmpty 1).1.config_file =
      joinPath "output" "dynamic_config.yaml" ∧
    (get_save_every (dcInit "job1" "output" fsEmpty 1).2
        (dcInit "job1" "output" fsEmpty 1).1 (some 500) 1).1 = some 500 :=
  ⟨by decide, rfl,
   (claim7_thm "job1" "output" fsEmpty 1 (by decide) rfl).1,
   (claim7_thm "job1" "output" fsEmpty 1 (by decide) rfl).2.2.2.2.2⟩
